import Mathlib

/-!
The Shadowsocks handler of package outlinecaddy.

A shallow embedding of `outlinecaddy/shadowsocks_handler.go`:

* `Provision` (lines 75-120): the loop that builds the cipher list from the
  configured keys, then the binding of the two handlers;
* `Handle` (lines 123-138): the dispatch of one classified connection.

Go values that the two functions only pass around (loggers, contexts, connections,
metrics sinks) are records that carry a name.  What the functions observe of the outside
world is explicit: the key derivation `shadowsocks.NewEncryptionKey` is an argument of
`Provision`, the behaviour of the bound handlers is an argument of `Handle`, log output
and calls to collaborators are returned as lists.
-/

namespace OutlineCaddy

/-! ## Go values -/

/-- Go `error` values: `new` is an error made from a message, `wrap` is
`fmt.Errorf(msg ++ ": %w", cause)`. -/
inductive GoError
  | new (msg : String)
  | wrap (msg : String) (cause : GoError)
deriving DecidableEq, Repr

/-- The text of an error, as `Error()` gives it. -/
def GoError.Error : GoError → String
  | .new msg => msg
  | .wrap msg cause => msg ++ ": " ++ cause.Error

/-- A `*slog.Logger`. -/
structure Logger where
  name : String
deriving DecidableEq, Repr

inductive LogLevel
  | Debug
  | Info
  | Warn
  | Error
deriving DecidableEq, Repr

/-- One record written through the logger: level, message, string attributes. -/
structure LogRecord where
  level : LogLevel
  msg : String
  attrs : List (String × String)
deriving DecidableEq, Repr

/-- Modelled from the spec: `ConnectionType` and its constants `StreamConnectionType`
and `PacketConnectionType` are declared in a file of package `outlinecaddy` that is not
among the sources.  The spec names the two values Stream and Packet.  A Go named type
has every value of its underlying type, not only its declared constants; a value that
is neither constant is `other`. -/
inductive ConnectionType
  | StreamConnectionType
  | PacketConnectionType
  | other (raw : String)
deriving DecidableEq, Repr

/-- An `outline.ReplayCache` value (a struct; `ctx.Value(...)` is asserted to the struct
type and its address is handed to the handlers). -/
structure ReplayCache where
  name : String
deriving DecidableEq, Repr

/-- The zero value of `outline.ReplayCache`, which a failed two-result type assertion
yields. -/
def ReplayCache.zero : ReplayCache := ⟨""⟩

/-- Modelled from the spec: `outline.ServiceMetrics` is declared in package `service`,
not among the sources.  The spec describes the metrics sink as a capability that opens
a tracking handle for a new stream connection or a new datagram association.  A field
of this interface type holds `none` for the nil interface. -/
structure ServiceMetrics where
  name : String
deriving DecidableEq, Repr

/-- The names under which the package stores values in a `caddy.Context` and in the
variables of a `layer4.Connection`.  The three constants are declared outside the
sources given; only their being distinct names matters. -/
inductive Key
  | outlineConnectionTypeCtxKey
  | replayCacheCtxKey
  | metricsCtxKey
  | other (name : String)
deriving DecidableEq, Repr

/-- A Go `any`: the dynamically typed values found under the keys above. -/
inductive GoAny
  | nil
  | connectionType (t : ConnectionType)
  | replayCache (r : ReplayCache)
  | serviceMetrics (m : ServiceMetrics)
  | other (typeName : String)
deriving DecidableEq, Repr

/-- The two-result assertion `v.(ConnectionType)`: the value, when the dynamic type is
`ConnectionType`. -/
def GoAny.assertConnectionType : GoAny → Option ConnectionType
  | .connectionType t => some t
  | _ => none

/-- The two-result assertion `v.(outline.ReplayCache)`: value and `ok`; the zero value
when the assertion fails. -/
def GoAny.assertReplayCache : GoAny → ReplayCache × Bool
  | .replayCache r => (r, true)
  | _ => (ReplayCache.zero, false)

/-- The two-result assertion `v.(outline.ServiceMetrics)`: value and `ok`; the nil
interface when the assertion fails. -/
def GoAny.assertServiceMetrics : GoAny → Option ServiceMetrics × Bool
  | .serviceMetrics m => (some m, true)
  | _ => (none, false)

/-- A `caddy.Context`: its logger and the values it carries. -/
structure Context where
  Slogger : Logger
  values : List (Key × GoAny)
deriving DecidableEq, Repr

/-- The method `ctx.Value(key)`: the stored value, nil when there is none. -/
def Context.Value (ctx : Context) (key : Key) : GoAny :=
  (ctx.values.lookup key).getD GoAny.nil

/-! ## Keys and cipher entries -/

structure KeyConfig where
  ID : String
  Cipher : String
  Secret : String
deriving DecidableEq, Repr

/-- A `*shadowsocks.EncryptionKey`: the key material that
`shadowsocks.NewEncryptionKey` derives. -/
structure EncryptionKey where
  material : String
deriving DecidableEq, Repr

/-- The type of `shadowsocks.NewEncryptionKey(cipherName, secretText)`, a function of
the outline-sdk library: a key or an error, determined by its two arguments. -/
abbrev KeyDerivation := String → String → Except GoError EncryptionKey

/-- Modelled from the spec: `outline.CipherEntry` and `outline.MakeCipherEntry` are in
package `service`, not among the sources.  The spec gives the entry as
`{id, material, secretLabel}`, produced from a valid KeyConfig after successful key
derivation. -/
structure CipherEntry where
  ID : String
  CryptoKey : EncryptionKey
  secretLabel : String
deriving DecidableEq, Repr

/-- Modelled from the spec: `outline.MakeCipherEntry(id, cryptoKey, secret)`, which is
not among the sources, builds the entry from its three arguments. -/
def MakeCipherEntry (id : String) (cryptoKey : EncryptionKey) (secret : String) :
    CipherEntry :=
  ⟨id, cryptoKey, secret⟩

/-- Modelled from the spec: `outline.CipherList` is in package `service`, not among the
sources.  The spec gives the registry as an ordered collection of CipherEntry with
insertion order preserved. -/
structure CipherList where
  entries : List CipherEntry
deriving DecidableEq, Repr

/-- Modelled from the spec: `outline.NewCipherList()`, not among the sources, gives an
empty registry. -/
def NewCipherList : CipherList := ⟨[]⟩

/-- Modelled from the spec: `ciphers.Update(cipherList)`, not among the sources, makes
the contents of the `container/list` the contents of the registry. -/
def CipherList.Update (_ : CipherList) (contents : List CipherEntry) : CipherList :=
  ⟨contents⟩

/-! ## The handler factory of package `service` -/

/-- Modelled from the spec: the state that `outline.NewShadowsocksHandlers` closes the
two handlers over (registry, replay cache, metrics sink, logger).  The function and its
options are in package `service`, not among the sources. -/
structure ssService where
  logger : Option Logger
  ciphers : CipherList
  metrics : Option ServiceMetrics
  replayCache : Option ReplayCache
deriving DecidableEq, Repr

/-- Modelled from the spec: an `outline.Option`, which sets one part of the state the
handlers are bound to. -/
inductive ServiceOption
  | WithLogger (l : Option Logger)
  | WithCiphers (ciphers : CipherList)
  | WithMetrics (metrics : Option ServiceMetrics)
  | WithReplayCache (replayCache : ReplayCache)
deriving DecidableEq, Repr

def ServiceOption.apply (s : ssService) : ServiceOption → ssService
  | .WithLogger l => { s with logger := l }
  | .WithCiphers c => { s with ciphers := c }
  | .WithMetrics m => { s with metrics := m }
  | .WithReplayCache r => { s with replayCache := some r }

/-- Modelled from the spec: an `outline.StreamHandler`, a capability closed over the
registry, the replay cache and the metrics sink. -/
structure StreamHandler where
  service : ssService
deriving DecidableEq, Repr

/-- Modelled from the spec: an `outline.AssociationHandler`, closed over the same
state. -/
structure AssociationHandler where
  service : ssService
deriving DecidableEq, Repr

/-- Modelled from the spec: `outline.NewShadowsocksHandlers(opts...)`, not among the
sources: pure construction of the two handlers from the options, which cannot fail. -/
def NewShadowsocksHandlers (opts : List ServiceOption) :
    StreamHandler × AssociationHandler :=
  let s := opts.foldl ServiceOption.apply ⟨none, NewCipherList, none, none⟩
  (⟨s⟩, ⟨s⟩)

/-! ## `ShadowsocksHandler` and `Provision` -/

/-- The struct `ShadowsocksHandler`.  The interface and pointer fields are `none` when
nil, which is what `new(ShadowsocksHandler)` gives. -/
structure ShadowsocksHandler where
  Keys : List KeyConfig
  streamHandler : Option StreamHandler
  associationHandler : Option AssociationHandler
  metrics : Option ServiceMetrics
  logger : Option Logger
deriving DecidableEq, Repr

/-- The local struct `cipherKey` of `Provision`. -/
structure cipherKey where
  cipher : String
  secret : String
deriving DecidableEq, Repr

/-- The variables of the loop of `Provision`: `cipherList` (a `container/list`, grown
with `PushBack`), the map `existingCiphers` as its list of bindings, and the records
logged so far. -/
structure LoopState where
  cipherList : List CipherEntry
  existingCiphers : List (cipherKey × Bool)
  log : List LogRecord
deriving DecidableEq, Repr

/-- The record of `h.logger.Debug("Encryption key already exists. Skipping.", ...)`. -/
def skipRecord (id : String) : LogRecord :=
  ⟨LogLevel.Debug, "Encryption key already exists. Skipping.", [("id", id)]⟩

/-- The error of line 95. -/
def keyError (id : String) (err : GoError) : GoError :=
  GoError.wrap ("failed to create encyption key for key " ++ id) err

/-- The loop `for _, cfg := range h.Keys` (lines 87-100), run over the keys that are
left.  The result is the state reached and the error of the early `return`, if any. -/
def provisionLoop (NewEncryptionKey : KeyDerivation) :
    List KeyConfig → LoopState → LoopState × Option GoError
  | [], st => (st, none)
  | cfg :: rest, st =>
    let key : cipherKey := ⟨cfg.Cipher, cfg.Secret⟩
    if (st.existingCiphers.lookup key).isSome then
      provisionLoop NewEncryptionKey rest { st with log := st.log ++ [skipRecord cfg.ID] }
    else
      match NewEncryptionKey cfg.Cipher cfg.Secret with
      | .error err => (st, some (keyError cfg.ID err))
      | .ok cryptoKey =>
        let entry := MakeCipherEntry cfg.ID cryptoKey cfg.Secret
        provisionLoop NewEncryptionKey rest
          { st with
            cipherList := st.cipherList ++ [entry]
            existingCiphers := (key, true) :: st.existingCiphers }

def noKeysRecord : LogRecord :=
  ⟨LogLevel.Warn, "no keys configured", []⟩

def noReplayCacheRecord : LogRecord :=
  ⟨LogLevel.Warn, "Handler configured outside Outline app; replay cache not available.", []⟩

def noMetricsRecord : LogRecord :=
  ⟨LogLevel.Warn, "Handler configured outside Outline app; metrics not available.", []⟩

/-- What a call of `Provision` leaves: the handler struct after the call, the error
returned (`none` for nil) and the records logged, in order. -/
structure ProvisionOutcome where
  h : ShadowsocksHandler
  err : Option GoError
  log : List LogRecord
deriving DecidableEq, Repr

/-- The method `(*ShadowsocksHandler).Provision`. -/
def Provision (NewEncryptionKey : KeyDerivation) (h : ShadowsocksHandler) (ctx : Context) :
    ProvisionOutcome :=
  let h := { h with logger := some ctx.Slogger }
  let log0 := if h.Keys.length = 0 then [noKeysRecord] else []
  match provisionLoop NewEncryptionKey h.Keys ⟨[], [], log0⟩ with
  | (st, some err) => ⟨h, some err, st.log⟩
  | (st, none) =>
    let ciphers := NewCipherList.Update st.cipherList
    let (replayCache, ok) := (ctx.Value Key.replayCacheCtxKey).assertReplayCache
    let log1 := if !ok then st.log ++ [noReplayCacheRecord] else st.log
    let (metrics, ok) := (ctx.Value Key.metricsCtxKey).assertServiceMetrics
    let h := { h with metrics := metrics }
    let log2 := if !ok then log1 ++ [noMetricsRecord] else log1
    let (sh, ah) := NewShadowsocksHandlers
      [ ServiceOption.WithLogger h.logger,
        ServiceOption.WithCiphers ciphers,
        ServiceOption.WithMetrics h.metrics,
        ServiceOption.WithReplayCache replayCache ]
    ⟨{ h with streamHandler := some sh, associationHandler := some ah }, none, log2⟩

/-! ## Connections and `Handle` -/

/-- The `context.Context` of a connection (`cx.Context`). -/
structure ExecContext where
  name : String
deriving DecidableEq, Repr

/-- The `net.Conn` inside a `layer4.Connection` (`cx.Conn`); `isStreamConn` tells whether
its dynamic type implements `transport.StreamConn`. -/
structure NetConn where
  name : String
  isStreamConn : Bool
deriving DecidableEq, Repr

/-- A `*layer4.Connection`: context, wrapped connection, variables. -/
structure Connection where
  Context : ExecContext
  Conn : NetConn
  vars : List (Key × GoAny)
deriving DecidableEq, Repr

/-- The method `cx.GetVar(key)`: the variable stored, nil when there is none. -/
def Connection.GetVar (cx : Connection) (key : Key) : GoAny :=
  (cx.vars.lookup key).getD GoAny.nil

/-- Modelled from the spec: the tracking handle that the metrics sink returns for an
opened stream connection (`outline.TCPConnMetrics`, not among the sources). -/
structure TCPConnMetrics where
  sink : ServiceMetrics
  conn : Connection
deriving DecidableEq, Repr

/-- Modelled from the spec: the tracking handle that the metrics sink returns for an
opened datagram association (`outline.UDPAssociationMetrics`, not among the sources). -/
structure UDPAssociationMetrics where
  sink : ServiceMetrics
  conn : Connection
deriving DecidableEq, Repr

/-- Modelled from the spec: `AddOpenTCPConnection`, not among the sources, registers the
opened connection and returns its handle.  The registration is an event of `Handle`. -/
def ServiceMetrics.AddOpenTCPConnection (m : ServiceMetrics) (cx : Connection) :
    TCPConnMetrics :=
  ⟨m, cx⟩

/-- Modelled from the spec: `AddOpenUDPAssociation`, not among the sources, registers the
opened association and returns its handle. -/
def ServiceMetrics.AddOpenUDPAssociation (m : ServiceMetrics) (cx : Connection) :
    UDPAssociationMetrics :=
  ⟨m, cx⟩

/-- What the bound handlers do when invoked is outside this file: for each invocation,
the error, if any, that the run of the handler ends with.  `Handle` calls both methods
as statements. -/
structure HandlerBehaviour where
  HandleStream :
    StreamHandler → ExecContext → NetConn → TCPConnMetrics → Option GoError
  HandleAssociation :
    AssociationHandler → ExecContext → NetConn → UDPAssociationMetrics → Option GoError

/-- The calls that `Handle` makes to its collaborators.  An invocation of a handler
records its receiver, its three arguments, and what the run of the handler ended
with. -/
inductive Event
  | AddOpenTCPConnection (m : ServiceMetrics) (cx : Connection)
  | AddOpenUDPAssociation (m : ServiceMetrics) (cx : Connection)
  | HandleStream (sh : StreamHandler) (ctx : ExecContext) (conn : NetConn)
      (connMetrics : TCPConnMetrics) (ended : Option GoError)
  | HandleAssociation (ah : AssociationHandler) (ctx : ExecContext) (conn : NetConn)
      (assocMetrics : UDPAssociationMetrics) (ended : Option GoError)
deriving DecidableEq, Repr

/-- How a call of `Handle` ends: it returns an error value (`none` for nil), or a
run-time panic unwinds it. -/
inductive Result
  | returned (err : Option GoError)
  | panicked (reason : String)
deriving DecidableEq, Repr

structure HandleOutcome where
  events : List Event
  result : Result
deriving DecidableEq, Repr

def unknownConnectionType : GoError :=
  GoError.new "unknown outline connection type"

def nilDereference : String :=
  "invalid memory address or nil pointer dereference"

def interfaceConversion : String :=
  "interface conversion: not a transport.StreamConn"

/-- The method `(*ShadowsocksHandler).Handle`.

The arguments of a handler call are evaluated from left to right: the single-result
assertion `cx.Conn.(transport.StreamConn)` panics when it fails, and a method call on
the nil interface `h.metrics` panics.  A nil handler is taken to panic at the call, after
the arguments; `Provision` never leaves a nil handler next to a metrics sink. -/
def Handle (B : HandlerBehaviour) (h : ShadowsocksHandler) (cx : Connection) :
    HandleOutcome :=
  match (cx.GetVar Key.outlineConnectionTypeCtxKey).assertConnectionType with
  | none => ⟨[], Result.returned (some unknownConnectionType)⟩
  | some connType =>
    match connType with
    | ConnectionType.StreamConnectionType =>
      if !cx.Conn.isStreamConn then ⟨[], Result.panicked interfaceConversion⟩
      else
        match h.metrics with
        | none => ⟨[], Result.panicked nilDereference⟩
        | some m =>
          let connMetrics := m.AddOpenTCPConnection cx
          match h.streamHandler with
          | none => ⟨[Event.AddOpenTCPConnection m cx], Result.panicked nilDereference⟩
          | some sh =>
            let ended := B.HandleStream sh cx.Context cx.Conn connMetrics
            ⟨[Event.AddOpenTCPConnection m cx,
              Event.HandleStream sh cx.Context cx.Conn connMetrics ended],
             Result.returned none⟩
    | ConnectionType.PacketConnectionType =>
      match h.metrics with
      | none => ⟨[], Result.panicked nilDereference⟩
      | some m =>
        let assocMetrics := m.AddOpenUDPAssociation cx
        match h.associationHandler with
        | none => ⟨[Event.AddOpenUDPAssociation m cx], Result.panicked nilDereference⟩
        | some ah =>
          let ended := B.HandleAssociation ah cx.Context cx.Conn assocMetrics
          ⟨[Event.AddOpenUDPAssociation m cx,
            Event.HandleAssociation ah cx.Context cx.Conn assocMetrics ended],
           Result.returned none⟩
    | ConnectionType.other _ => ⟨[], Result.returned none⟩

/-! ## The registry in the words of the specification -/

/-- The CipherIdentity of a config: the pair `(cipher, secret)`. -/
def identity (cfg : KeyConfig) : String × String :=
  (cfg.Cipher, cfg.Secret)

/-- The configs of the input that are not preceded in the input by a config with the
same `(cipher, secret)` pair, in input order: the config at index `i` is taken when no
config among the first `i` has its identity. -/
def firstOccurrences (keys : List KeyConfig) : List KeyConfig :=
  (List.range keys.length).filterMap fun i =>
    (keys.get? i).filter fun cfg => !(keys.take i).any fun p => identity p = identity cfg

/-- The entry that a config gives: its own id, the key derived from its cipher and
secret, its secret; nothing when the key derivation fails. -/
def entryOf (NewEncryptionKey : KeyDerivation) (cfg : KeyConfig) : Option CipherEntry :=
  match NewEncryptionKey cfg.Cipher cfg.Secret with
  | .ok cryptoKey => some (MakeCipherEntry cfg.ID cryptoKey cfg.Secret)
  | .error _ => none

/-- The registry that the stream handler of `h` is bound to. -/
def streamRegistry (h : ShadowsocksHandler) : Option (List CipherEntry) :=
  h.streamHandler.map fun sh => sh.service.ciphers.entries

/-- The registry that the association handler of `h` is bound to. -/
def associationRegistry (h : ShadowsocksHandler) : Option (List CipherEntry) :=
  h.associationHandler.map fun ah => ah.service.ciphers.entries

/-! ## Values for the worked examples -/

/-- A key derivation for the worked examples: it accepts the names of the AEAD ciphers
of Shadowsocks and any secret, and rejects every other cipher name. -/
def exampleNewEncryptionKey : KeyDerivation := fun cipherName secretText =>
  if cipherName ∈ ["aes-128-gcm", "aes-192-gcm", "aes-256-gcm", "chacha20-ietf-poly1305"] then
    .ok ⟨cipherName ++ "/" ++ secretText⟩
  else
    .error (GoError.new ("unsupported cipher " ++ cipherName))

/-- The handler that `new(ShadowsocksHandler)` and the decoding of the configuration
give: the keys set, every other field nil. -/
def newHandler (keys : List KeyConfig) : ShadowsocksHandler :=
  ⟨keys, none, none, none, none⟩

/-- A context of the Outline app: a replay cache and a metrics sink are available. -/
def appContext : Context :=
  ⟨⟨"caddy"⟩,
   [(Key.replayCacheCtxKey, GoAny.replayCache ⟨"replay"⟩),
    (Key.metricsCtxKey, GoAny.serviceMetrics ⟨"prometheus"⟩)]⟩

/-- A context outside the Outline app: neither a replay cache nor a metrics sink. -/
def bareContext : Context :=
  ⟨⟨"caddy"⟩, []⟩

def exampleKeys : List KeyConfig :=
  [⟨"a", "aes-256-gcm", "s1"⟩, ⟨"b", "aes-256-gcm", "s1"⟩, ⟨"c", "aes-256-gcm", "s2"⟩]

def bogusKeys : List KeyConfig :=
  [⟨"x", "bogus-cipher", "s"⟩]

/-- A connection with the given wrapped connection and the given variables. -/
def exampleConnection (isStreamConn : Bool) (vars : List (Key × GoAny)) : Connection :=
  ⟨⟨"background"⟩, ⟨"client", isStreamConn⟩, vars⟩

/-- Handlers whose runs end without an error. -/
def quietHandlers : HandlerBehaviour :=
  ⟨fun _ _ _ _ => none, fun _ _ _ _ => none⟩

/-- Handlers whose runs end with the error `e`. -/
def failingHandlers (e : GoError) : HandlerBehaviour :=
  ⟨fun _ _ _ _ => some e, fun _ _ _ _ => some e⟩

/-- The variable that classifies a connection as a stream. -/
def streamTag : Key × GoAny :=
  (Key.outlineConnectionTypeCtxKey, GoAny.connectionType ConnectionType.StreamConnectionType)

/-- The variable that classifies a connection as a datagram association. -/
def packetTag : Key × GoAny :=
  (Key.outlineConnectionTypeCtxKey, GoAny.connectionType ConnectionType.PacketConnectionType)

/-- The error of a handler run in the worked examples. -/
def connectionReset : GoError :=
  GoError.new "read: connection reset by peer"

/-! ## Definitions for the proofs -/

/-- First occurrences, read along the input: `before` holds the configs that precede
`keys`. -/
def firstOccurrencesAfter (before : List KeyConfig) : List KeyConfig → List KeyConfig
  | [] => []
  | cfg :: rest =>
    if before.any (fun p => identity p = identity cfg) then
      firstOccurrencesAfter (before ++ [cfg]) rest
    else
      cfg :: firstOccurrencesAfter (before ++ [cfg]) rest

/-- The key under which the loop records a config in `existingCiphers`. -/
def keyOf (cfg : KeyConfig) : cipherKey :=
  ⟨cfg.Cipher, cfg.Secret⟩

/-- The map holds exactly the keys of the configs read so far. -/
def MapHolds (before : List KeyConfig) (st : LoopState) : Prop :=
  ∀ k : cipherKey, (st.existingCiphers.lookup k).isSome = true ↔ ∃ b ∈ before, keyOf b = k

/-- Every key in the map has a key derivation that succeeds. -/
def MapDerivable (NewEncryptionKey : KeyDerivation) (st : LoopState) : Prop :=
  ∀ k : cipherKey, (st.existingCiphers.lookup k).isSome = true →
    ∃ cryptoKey, NewEncryptionKey k.cipher k.secret = .ok cryptoKey

/-- The records that `Provision` has logged when the loop starts. -/
def initialLog (h : ShadowsocksHandler) : List LogRecord :=
  if h.Keys.length = 0 then [noKeysRecord] else []

/-- The state that the two handlers are bound to when the loop ends in `st`. -/
def boundService (ctx : Context) (st : LoopState) : ssService :=
  ⟨some ctx.Slogger, ⟨st.cipherList⟩, (ctx.Value Key.metricsCtxKey).assertServiceMetrics.1,
    some (ctx.Value Key.replayCacheCtxKey).assertReplayCache.1⟩

/-- What the run of the handler ended with, for an invocation of a handler; `none` for
the other calls. -/
def Event.ended : Event → Option GoError
  | .HandleStream _ _ _ _ e => e
  | .HandleAssociation _ _ _ _ e => e
  | _ => none

/-! ## Lemmas on first occurrences -/

theorem firstOccurrencesAfter_eq_range (keys : List KeyConfig) :
    ∀ before : List KeyConfig,
      firstOccurrencesAfter before keys =
        (List.range keys.length).filterMap fun i =>
          (keys.get? i).filter fun cfg =>
            !(before ++ keys.take i).any fun p => identity p = identity cfg := by
  induction keys with
  | nil => intro before; simp [firstOccurrencesAfter]
  | cons cfg rest ih =>
    intro before
    rw [firstOccurrencesAfter, ih (before ++ [cfg])]
    simp only [List.length_cons, List.range_succ_eq_map, List.filterMap_cons,
      List.filterMap_map]
    have hrest : ((fun i => (List.get? (cfg :: rest) i).filter fun c =>
          !(before ++ List.take i (cfg :: rest)).any fun p => identity p = identity c) ∘
          Nat.succ) =
        fun i => (rest.get? i).filter fun c =>
          !(before ++ [cfg] ++ List.take i rest).any fun p => identity p = identity c := by
      funext i
      simp [Function.comp]
    rw [hrest]
    by_cases hb : before.any (fun p => identity p = identity cfg) = true
    · simp [hb, Option.filter]
    · simp [hb, Option.filter]

theorem firstOccurrences_eq (keys : List KeyConfig) :
    firstOccurrences keys = firstOccurrencesAfter [] keys := by
  rw [firstOccurrencesAfter_eq_range]
  simp [firstOccurrences]

theorem firstOccurrencesAfter_sublist (keys : List KeyConfig) :
    ∀ before : List KeyConfig, (firstOccurrencesAfter before keys).Sublist keys := by
  induction keys with
  | nil => intro before; simp [firstOccurrencesAfter]
  | cons cfg rest ih =>
    intro before
    rw [firstOccurrencesAfter]
    split
    · exact (ih _).cons _
    · exact (ih _).cons₂ _

theorem firstOccurrencesAfter_fresh (keys : List KeyConfig) :
    ∀ before : List KeyConfig, ∀ c ∈ firstOccurrencesAfter before keys,
      ∀ b ∈ before, identity b ≠ identity c := by
  induction keys with
  | nil => intro before c hc; simp [firstOccurrencesAfter] at hc
  | cons cfg rest ih =>
    intro before c hc b hb
    rw [firstOccurrencesAfter] at hc
    split at hc
    · exact ih _ c hc b (by simp [hb])
    · rename_i hnot
      rcases List.mem_cons.1 hc with rfl | hc
      · intro hEq
        exact hnot (List.any_eq_true.2 ⟨b, hb, by simpa using hEq⟩)
      · exact ih _ c hc b (by simp [hb])

theorem firstOccurrencesAfter_pairwise (keys : List KeyConfig) :
    ∀ before : List KeyConfig,
      (firstOccurrencesAfter before keys).Pairwise fun a b => identity a ≠ identity b := by
  induction keys with
  | nil => intro before; simp [firstOccurrencesAfter]
  | cons cfg rest ih =>
    intro before
    rw [firstOccurrencesAfter]
    split
    · exact ih _
    · refine List.pairwise_cons.2 ⟨?_, ih _⟩
      intro c hc
      exact firstOccurrencesAfter_fresh rest _ c hc cfg (by simp)


/-! ## Lemmas on the loop of `Provision` -/

theorem keyOf_eq_iff (a b : KeyConfig) : keyOf a = keyOf b ↔ identity a = identity b := by
  simp [keyOf, identity]

theorem lookup_cons_isSome (k key : cipherKey) (m : List (cipherKey × Bool)) :
    (List.lookup k ((key, true) :: m)).isSome = true ↔
      key = k ∨ (List.lookup k m).isSome = true := by
  by_cases h : k = key
  · subst h; simp [List.lookup]
  · have h2 : ¬ key = k := fun e => h e.symm
    have h3 : (k == key) = false := by simpa using h
    simp [List.lookup, h3, h2]

theorem provisionLoop_ok (NewEncryptionKey : KeyDerivation) (keys : List KeyConfig) :
    ∀ (before : List KeyConfig) (st final : LoopState), MapHolds before st →
      provisionLoop NewEncryptionKey keys st = (final, none) →
      ∃ entries, final.cipherList = st.cipherList ++ entries ∧
        entries.map some = (firstOccurrencesAfter before keys).map (entryOf NewEncryptionKey) := by
  induction keys with
  | nil =>
    intro before st final _ hrun
    simp [provisionLoop] at hrun
    exact ⟨[], by simp [hrun], by simp [firstOccurrencesAfter]⟩
  | cons cfg rest ih =>
    intro before st final hmap hrun
    have hseen : (st.existingCiphers.lookup (keyOf cfg)).isSome = true ↔
        before.any (fun p => identity p = identity cfg) = true := by
      rw [hmap (keyOf cfg), List.any_eq_true]
      constructor
      · rintro ⟨b, hb, hk⟩
        exact ⟨b, hb, by simpa using (keyOf_eq_iff b cfg).1 hk⟩
      · rintro ⟨b, hb, hk⟩
        exact ⟨b, hb, (keyOf_eq_iff b cfg).2 (by simpa using hk)⟩
    rw [provisionLoop] at hrun
    simp only [] at hrun
    by_cases hdup : (st.existingCiphers.lookup (keyOf cfg)).isSome = true
    · have hdup2 : (List.lookup ({ cipher := cfg.Cipher, secret := cfg.Secret } : cipherKey)
          st.existingCiphers).isSome = true := hdup
      rw [if_pos hdup2] at hrun
      have hmap2 : MapHolds (before ++ [cfg])
          { st with log := st.log ++ [skipRecord cfg.ID] } := by
        intro k
        rw [show ({ st with log := st.log ++ [skipRecord cfg.ID] } : LoopState).existingCiphers
          = st.existingCiphers from rfl, hmap k]
        constructor
        · rintro ⟨b, hb, hk⟩
          exact ⟨b, by simp [hb], hk⟩
        · rintro ⟨b, hb, hk⟩
          rcases List.mem_append.1 hb with hb | hb
          · exact ⟨b, hb, hk⟩
          · have : b = cfg := by simpa using hb
            subst this
            exact (hmap k).1 (hk ▸ hdup)
      obtain ⟨entries, h1, h2⟩ := ih _ _ _ hmap2 hrun
      refine ⟨entries, h1, ?_⟩
      rw [firstOccurrencesAfter, if_pos (hseen.1 hdup)]
      exact h2
    · have hdup2 : ¬ (List.lookup ({ cipher := cfg.Cipher, secret := cfg.Secret } : cipherKey)
          st.existingCiphers).isSome = true := hdup
      rw [if_neg hdup2] at hrun
      cases hnk : NewEncryptionKey cfg.Cipher cfg.Secret with
      | error err => rw [hnk] at hrun; simp at hrun
      | ok cryptoKey =>
        rw [hnk] at hrun
        simp only [] at hrun
        have hmap2 : MapHolds (before ++ [cfg])
            { st with
              cipherList := st.cipherList ++ [MakeCipherEntry cfg.ID cryptoKey cfg.Secret]
              existingCiphers := (keyOf cfg, true) :: st.existingCiphers } := by
          intro k
          show (List.lookup k ((keyOf cfg, true) :: st.existingCiphers)).isSome = true ↔ _
          rw [lookup_cons_isSome, hmap k]
          constructor
          · rintro (hk | ⟨b, hb, hk⟩)
            · exact ⟨cfg, by simp, hk⟩
            · exact ⟨b, by simp [hb], hk⟩
          · rintro ⟨b, hb, hk⟩
            rcases List.mem_append.1 hb with hb | hb
            · exact Or.inr ⟨b, hb, hk⟩
            · have : b = cfg := by simpa using hb
              subst this
              exact Or.inl hk
        obtain ⟨entries, h1, h2⟩ := ih _ _ _ hmap2 hrun
        refine ⟨MakeCipherEntry cfg.ID cryptoKey cfg.Secret :: entries, ?_, ?_⟩
        · rw [h1]; simp
        · have hnot : ¬ before.any (fun p => identity p = identity cfg) = true :=
            fun h => hdup (hseen.2 h)
          rw [firstOccurrencesAfter, if_neg hnot]
          simp [h2, entryOf, hnk]

theorem provisionLoop_log (NewEncryptionKey : KeyDerivation) (keys : List KeyConfig) :
    ∀ (st final : LoopState) (err : Option GoError),
      provisionLoop NewEncryptionKey keys st = (final, err) →
      ∃ extra, final.log = st.log ++ extra ∧ ∀ r ∈ extra, r.level = LogLevel.Debug := by
  induction keys with
  | nil =>
    intro st final err hrun
    simp [provisionLoop] at hrun
    exact ⟨[], by simp [hrun.1], by simp⟩
  | cons cfg rest ih =>
    intro st final err hrun
    rw [provisionLoop] at hrun
    simp only [] at hrun
    split at hrun
    · obtain ⟨extra, h1, h2⟩ := ih _ _ _ hrun
      refine ⟨skipRecord cfg.ID :: extra, by simp [h1], ?_⟩
      intro r hr
      rcases List.mem_cons.1 hr with rfl | hr
      · rfl
      · exact h2 r hr
    · split at hrun
      · simp at hrun
        exact ⟨[], by simp [hrun.1], by simp⟩
      · obtain ⟨extra, h1, h2⟩ := ih _ _ _ hrun
        exact ⟨extra, h1, h2⟩

theorem provisionLoop_error (NewEncryptionKey : KeyDerivation) (keys : List KeyConfig) :
    ∀ st : LoopState, MapDerivable NewEncryptionKey st →
      (∃ cfg ∈ keys, ∃ err, NewEncryptionKey cfg.Cipher cfg.Secret = .error err) →
      ∃ cfg ∈ keys, ∃ err, NewEncryptionKey cfg.Cipher cfg.Secret = .error err ∧
        (provisionLoop NewEncryptionKey keys st).2 = some (keyError cfg.ID err) := by
  induction keys with
  | nil => intro st _ hbad; simp at hbad
  | cons cfg rest ih =>
    intro st hder hbad
    rw [provisionLoop]
    simp only []
    have hrest : (∃ cryptoKey, NewEncryptionKey cfg.Cipher cfg.Secret = .ok cryptoKey) →
        ∃ c ∈ rest, ∃ err, NewEncryptionKey c.Cipher c.Secret = .error err := by
      rintro ⟨cryptoKey, hkey⟩
      obtain ⟨c, hc, err, herr⟩ := hbad
      rcases List.mem_cons.1 hc with rfl | hc
      · rw [hkey] at herr
        cases herr
      · exact ⟨c, hc, err, herr⟩
    split
    · rename_i hdup
      obtain ⟨c, hc, err, herr, hres⟩ :=
        ih { st with log := st.log ++ [skipRecord cfg.ID] } (fun k hk => hder k hk)
          (hrest (hder (keyOf cfg) hdup))
      exact ⟨c, List.mem_cons_of_mem _ hc, err, herr, hres⟩
    · split
      · rename_i err herr
        exact ⟨cfg, by simp, err, herr, rfl⟩
      · rename_i cryptoKey hkey
        have hder2 : MapDerivable NewEncryptionKey
            { st with
              cipherList := st.cipherList ++ [MakeCipherEntry cfg.ID cryptoKey cfg.Secret]
              existingCiphers := (keyOf cfg, true) :: st.existingCiphers } := by
          intro k hk
          have hk2 : (List.lookup k ((keyOf cfg, true) :: st.existingCiphers)).isSome = true := hk
          rcases (lookup_cons_isSome k (keyOf cfg) st.existingCiphers).1 hk2 with rfl | hk3
          · exact ⟨cryptoKey, hkey⟩
          · exact hder k hk3
        obtain ⟨c, hc, err, herr, hres⟩ := ih _ hder2 (hrest ⟨cryptoKey, hkey⟩)
        exact ⟨c, List.mem_cons_of_mem _ hc, err, herr, hres⟩

/-! ## Lemmas on `Provision` -/

theorem Provision_of_loop_ok (NewEncryptionKey : KeyDerivation) (h : ShadowsocksHandler)
    (ctx : Context) (st : LoopState)
    (hrun : provisionLoop NewEncryptionKey h.Keys ⟨[], [], initialLog h⟩ = (st, none)) :
    (Provision NewEncryptionKey h ctx).err = none ∧
    (Provision NewEncryptionKey h ctx).h =
      ⟨h.Keys, some ⟨boundService ctx st⟩, some ⟨boundService ctx st⟩,
        (ctx.Value Key.metricsCtxKey).assertServiceMetrics.1, some ctx.Slogger⟩ ∧
    ∃ warnings, (Provision NewEncryptionKey h ctx).log = st.log ++ warnings ∧
      ∀ r ∈ warnings, r = noReplayCacheRecord ∨ r = noMetricsRecord := by
  unfold initialLog at hrun
  unfold Provision
  simp only [hrun]
  refine ⟨trivial, ?_, ?_⟩
  · simp [boundService, NewShadowsocksHandlers, ServiceOption.apply, CipherList.Update]
  · cases h1 : ((ctx.Value Key.replayCacheCtxKey).assertReplayCache).2 <;>
      cases h2 : ((ctx.Value Key.metricsCtxKey).assertServiceMetrics).2
    · exact ⟨[noReplayCacheRecord, noMetricsRecord], by simp [h1, h2], by simp⟩
    · exact ⟨[noReplayCacheRecord], by simp [h1, h2], by simp⟩
    · exact ⟨[noMetricsRecord], by simp [h1, h2], by simp⟩
    · exact ⟨[], by simp [h1, h2], by simp⟩

theorem Provision_of_loop_error (NewEncryptionKey : KeyDerivation) (h : ShadowsocksHandler)
    (ctx : Context) (st : LoopState) (e : GoError)
    (hrun : provisionLoop NewEncryptionKey h.Keys ⟨[], [], initialLog h⟩ = (st, some e)) :
    Provision NewEncryptionKey h ctx = ⟨{ h with logger := some ctx.Slogger }, some e, st.log⟩ := by
  unfold initialLog at hrun
  unfold Provision
  simp only [hrun]

theorem Provision_ok_loop (NewEncryptionKey : KeyDerivation) (h : ShadowsocksHandler)
    (ctx : Context) (hok : (Provision NewEncryptionKey h ctx).err = none) :
    ∃ st, provisionLoop NewEncryptionKey h.Keys ⟨[], [], initialLog h⟩ = (st, none) := by
  rcases hrun : provisionLoop NewEncryptionKey h.Keys ⟨[], [], initialLog h⟩ with ⟨st, _ | e⟩
  · exact ⟨st, rfl⟩
  · rw [Provision_of_loop_error NewEncryptionKey h ctx st e hrun] at hok
    cases hok

theorem mapHolds_start (log : List LogRecord) : MapHolds [] ⟨[], [], log⟩ := by
  intro k; simp

theorem mapDerivable_start (NewEncryptionKey : KeyDerivation) (log : List LogRecord) :
    MapDerivable NewEncryptionKey ⟨[], [], log⟩ := by
  intro k hk; simp at hk

/-- On success both handlers are bound to the registry that holds, in order, the entries
of the first occurrences. -/
theorem Provision_registry (NewEncryptionKey : KeyDerivation) (h : ShadowsocksHandler)
    (ctx : Context) (hok : (Provision NewEncryptionKey h ctx).err = none) :
    ∃ entries,
      streamRegistry (Provision NewEncryptionKey h ctx).h = some entries ∧
      associationRegistry (Provision NewEncryptionKey h ctx).h = some entries ∧
      entries.map some = (firstOccurrencesAfter [] h.Keys).map (entryOf NewEncryptionKey) := by
  obtain ⟨st, hrun⟩ := Provision_ok_loop NewEncryptionKey h ctx hok
  obtain ⟨_, hh, _⟩ := Provision_of_loop_ok NewEncryptionKey h ctx st hrun
  obtain ⟨entries, h1, h2⟩ :=
    provisionLoop_ok NewEncryptionKey h.Keys [] _ st (mapHolds_start _) hrun
  refine ⟨entries, ?_, ?_, h2⟩
  · rw [hh]; simp [streamRegistry, boundService, h1]
  · rw [hh]; simp [associationRegistry, boundService, h1]

theorem forall₂_of_map_entryOf (NewEncryptionKey : KeyDerivation) (kept : List KeyConfig) :
    ∀ entries : List CipherEntry,
      entries.map some = kept.map (entryOf NewEncryptionKey) →
      List.Forall₂
        (fun cfg entry => ∃ cryptoKey,
          NewEncryptionKey cfg.Cipher cfg.Secret = .ok cryptoKey ∧
          entry = MakeCipherEntry cfg.ID cryptoKey cfg.Secret)
        kept entries := by
  induction kept with
  | nil =>
    intro entries hmap
    cases entries with
    | nil => exact List.Forall₂.nil
    | cons e es => simp at hmap
  | cons cfg rest ih =>
    intro entries hmap
    cases entries with
    | nil => simp at hmap
    | cons e es =>
      simp only [List.map_cons, List.cons.injEq] at hmap
      refine List.Forall₂.cons ?_ (ih es hmap.2)
      have h1 := hmap.1
      unfold entryOf at h1
      split at h1
      · rename_i cryptoKey hkey
        exact ⟨cryptoKey, hkey, by simpa using h1⟩
      · simp at h1


theorem ids_of_forall₂ (NewEncryptionKey : KeyDerivation) (kept : List KeyConfig)
    (entries : List CipherEntry)
    (hall : List.Forall₂
      (fun cfg entry => ∃ cryptoKey,
        NewEncryptionKey cfg.Cipher cfg.Secret = .ok cryptoKey ∧
        entry = MakeCipherEntry cfg.ID cryptoKey cfg.Secret)
      kept entries) :
    entries.map CipherEntry.ID = kept.map KeyConfig.ID := by
  induction hall with
  | nil => rfl
  | cons hhead _ ih =>
    obtain ⟨cryptoKey, _, hentry⟩ := hhead
    simp [hentry, MakeCipherEntry, ih]

/-! ## The registry built by `Provision` -/

/-- C1: when `Provision` succeeds, the registry bound to both handlers is made, entry by
entry, from a sublist `kept` of the configured keys; no two configs of `kept` have equal
`(cipher, secret)` pairs, and each entry is `MakeCipherEntry` of its config's id, of the
key that `NewEncryptionKey` derived for that config with success, and of its secret. -/
theorem provision_registry_distinct_and_derived (NewEncryptionKey : KeyDerivation)
    (h : ShadowsocksHandler) (ctx : Context)
    (hok : (Provision NewEncryptionKey h ctx).err = none) :
    ∃ entries kept,
      streamRegistry (Provision NewEncryptionKey h ctx).h = some entries ∧
      associationRegistry (Provision NewEncryptionKey h ctx).h = some entries ∧
      kept.Sublist h.Keys ∧
      List.Forall₂
        (fun cfg entry => ∃ cryptoKey,
          NewEncryptionKey cfg.Cipher cfg.Secret = .ok cryptoKey ∧
          entry = MakeCipherEntry cfg.ID cryptoKey cfg.Secret)
        kept entries ∧
      kept.Pairwise fun a b => (a.Cipher, a.Secret) ≠ (b.Cipher, b.Secret) := by
  obtain ⟨entries, h1, h2, h3⟩ := Provision_registry NewEncryptionKey h ctx hok
  exact ⟨entries, firstOccurrencesAfter [] h.Keys, h1, h2,
    firstOccurrencesAfter_sublist h.Keys [],
    forall₂_of_map_entryOf NewEncryptionKey _ entries h3,
    firstOccurrencesAfter_pairwise h.Keys []⟩

/-- The example of C1: the keys a, b, c build with success, and the registry comes from
a duplicate-free sublist of them. -/
theorem provision_registry_distinct_and_derived_witness :
    (Provision exampleNewEncryptionKey (newHandler exampleKeys) appContext).err = none ∧
    ∃ entries kept,
      streamRegistry (Provision exampleNewEncryptionKey (newHandler exampleKeys) appContext).h =
        some entries ∧
      associationRegistry
        (Provision exampleNewEncryptionKey (newHandler exampleKeys) appContext).h =
        some entries ∧
      kept.Sublist (newHandler exampleKeys).Keys ∧
      List.Forall₂
        (fun cfg entry => ∃ cryptoKey,
          exampleNewEncryptionKey cfg.Cipher cfg.Secret = .ok cryptoKey ∧
          entry = MakeCipherEntry cfg.ID cryptoKey cfg.Secret)
        kept entries ∧
      kept.Pairwise fun a b => (a.Cipher, a.Secret) ≠ (b.Cipher, b.Secret) :=
  ⟨by decide,
   provision_registry_distinct_and_derived exampleNewEncryptionKey (newHandler exampleKeys)
     appContext (by decide)⟩

/-- C2: when `Provision` succeeds, the registry bound to both handlers is, in order, the
list of the entries of the first occurrences: the configs that no config with the same
`(cipher, secret)` pair precedes in the input, each giving the entry with its own id,
its derived key and its secret. -/
theorem provision_registry_first_occurrences (NewEncryptionKey : KeyDerivation)
    (h : ShadowsocksHandler) (ctx : Context)
    (hok : (Provision NewEncryptionKey h ctx).err = none) :
    ∃ entries,
      streamRegistry (Provision NewEncryptionKey h ctx).h = some entries ∧
      associationRegistry (Provision NewEncryptionKey h ctx).h = some entries ∧
      entries.map some = (firstOccurrences h.Keys).map (entryOf NewEncryptionKey) ∧
      entries.map CipherEntry.ID = (firstOccurrences h.Keys).map KeyConfig.ID := by
  obtain ⟨entries, h1, h2, h3⟩ := Provision_registry NewEncryptionKey h ctx hok
  rw [← firstOccurrences_eq] at h3
  exact ⟨entries, h1, h2, h3,
    ids_of_forall₂ NewEncryptionKey _ entries (forall₂_of_map_entryOf NewEncryptionKey _ entries h3)⟩

/-- The scenario of C2: the configs a(aes-256-gcm, s1), b(aes-256-gcm, s1),
c(aes-256-gcm, s2) give exactly two entries, with ids a then c. -/
theorem provision_registry_first_occurrences_witness :
    (Provision exampleNewEncryptionKey (newHandler exampleKeys) appContext).err = none ∧
    ∃ entries,
      streamRegistry (Provision exampleNewEncryptionKey (newHandler exampleKeys) appContext).h =
        some entries ∧
      associationRegistry
        (Provision exampleNewEncryptionKey (newHandler exampleKeys) appContext).h =
        some entries ∧
      entries.length = 2 ∧ entries.map CipherEntry.ID = ["a", "c"] := by
  refine ⟨by decide, ?_⟩
  obtain ⟨entries, h1, h2, _, h4⟩ :=
    provision_registry_first_occurrences exampleNewEncryptionKey (newHandler exampleKeys)
      appContext (by decide)
  have hids : (firstOccurrences (newHandler exampleKeys).Keys).map KeyConfig.ID = ["a", "c"] := by
    decide
  rw [hids] at h4
  refine ⟨entries, h1, h2, ?_, h4⟩
  have hlen := congrArg List.length h4
  simpa using hlen

/-- C3: when some configured key, wherever it is in the list, has a key derivation that
fails, `Provision` returns an error, which wraps the failure of one such key, and the
fields `streamHandler`, `associationHandler` and `metrics` are what they were before the
call. -/
theorem provision_fails_on_underivable_key (NewEncryptionKey : KeyDerivation)
    (h : ShadowsocksHandler) (ctx : Context)
    (hbad : ∃ cfg ∈ h.Keys, ∃ err, NewEncryptionKey cfg.Cipher cfg.Secret = .error err) :
    (∃ cfg ∈ h.Keys, ∃ err, NewEncryptionKey cfg.Cipher cfg.Secret = .error err ∧
      (Provision NewEncryptionKey h ctx).err = some (keyError cfg.ID err)) ∧
    (Provision NewEncryptionKey h ctx).h.streamHandler = h.streamHandler ∧
    (Provision NewEncryptionKey h ctx).h.associationHandler = h.associationHandler ∧
    (Provision NewEncryptionKey h ctx).h.metrics = h.metrics ∧
    streamRegistry (Provision NewEncryptionKey h ctx).h = streamRegistry h ∧
    associationRegistry (Provision NewEncryptionKey h ctx).h = associationRegistry h := by
  obtain ⟨cfg, hcfg, err, herr, hres⟩ :=
    provisionLoop_error NewEncryptionKey h.Keys ⟨[], [], initialLog h⟩
      (mapDerivable_start NewEncryptionKey _) hbad
  rcases hrun : provisionLoop NewEncryptionKey h.Keys ⟨[], [], initialLog h⟩ with ⟨st, r⟩
  rw [hrun] at hres
  simp only [] at hres
  subst hres
  rw [Provision_of_loop_error NewEncryptionKey h ctx st _ hrun]
  exact ⟨⟨cfg, hcfg, err, herr, rfl⟩, rfl, rfl, rfl, rfl, rfl⟩

/-- The scenario of C3: the single config x(bogus-cipher, s) makes `Provision` fail, and
a handler that was unbound stays unbound. -/
theorem provision_fails_on_underivable_key_witness :
    (∃ e, (Provision exampleNewEncryptionKey (newHandler bogusKeys) appContext).err = some e) ∧
    (Provision exampleNewEncryptionKey (newHandler bogusKeys) appContext).h.streamHandler = none ∧
    (Provision exampleNewEncryptionKey (newHandler bogusKeys) appContext).h.associationHandler =
      none := by
  have hbad : ∃ cfg ∈ (newHandler bogusKeys).Keys, ∃ err,
      exampleNewEncryptionKey cfg.Cipher cfg.Secret = .error err :=
    ⟨⟨"x", "bogus-cipher", "s"⟩, by decide,
      GoError.new ("unsupported cipher " ++ "bogus-cipher"), by
        simp [exampleNewEncryptionKey]⟩
  obtain ⟨⟨cfg, _, err, _, herr⟩, hs, ha, _⟩ :=
    provision_fails_on_underivable_key exampleNewEncryptionKey (newHandler bogusKeys)
      appContext hbad
  exact ⟨⟨_, herr⟩, hs, ha⟩

/-- C9: with no key configured, `Provision` returns no error and binds both handlers to
the empty registry, whatever the key derivation and the context are. -/
theorem provision_empty_keys (NewEncryptionKey : KeyDerivation) (h : ShadowsocksHandler)
    (ctx : Context) :
    (Provision NewEncryptionKey { h with Keys := [] } ctx).err = none ∧
    streamRegistry (Provision NewEncryptionKey { h with Keys := [] } ctx).h = some [] ∧
    associationRegistry (Provision NewEncryptionKey { h with Keys := [] } ctx).h = some [] := by
  have hrun : provisionLoop NewEncryptionKey ({ h with Keys := [] } : ShadowsocksHandler).Keys
      ⟨[], [], initialLog { h with Keys := [] }⟩ =
      (⟨[], [], initialLog { h with Keys := [] }⟩, none) := rfl
  obtain ⟨herr, hh, _⟩ := Provision_of_loop_ok NewEncryptionKey _ ctx _ hrun
  refine ⟨herr, ?_, ?_⟩
  · rw [hh]; rfl
  · rw [hh]; rfl

/-- C10: when `Provision` succeeds, the record of the warning "no keys configured" is in
the log exactly when the registry bound to the handlers has no entry; the warning is
logged exactly when no key is configured, and no key is configured exactly when the
registry is empty. -/
theorem no_keys_warning_iff_empty_registry (NewEncryptionKey : KeyDerivation)
    (h : ShadowsocksHandler) (ctx : Context)
    (hok : (Provision NewEncryptionKey h ctx).err = none) :
    ∃ entries,
      streamRegistry (Provision NewEncryptionKey h ctx).h = some entries ∧
      associationRegistry (Provision NewEncryptionKey h ctx).h = some entries ∧
      (noKeysRecord ∈ (Provision NewEncryptionKey h ctx).log ↔ entries = []) ∧
      (noKeysRecord ∈ (Provision NewEncryptionKey h ctx).log ↔ h.Keys = []) := by
  obtain ⟨entries, h1, h2, h3⟩ := Provision_registry NewEncryptionKey h ctx hok
  obtain ⟨st, hrun⟩ := Provision_ok_loop NewEncryptionKey h ctx hok
  obtain ⟨_, _, warnings, hlog, hwarn⟩ := Provision_of_loop_ok NewEncryptionKey h ctx st hrun
  obtain ⟨extra, hextra, hdebug⟩ := provisionLoop_log NewEncryptionKey h.Keys _ st none hrun
  have hkeys : noKeysRecord ∈ (Provision NewEncryptionKey h ctx).log ↔ h.Keys = [] := by
    rw [hlog, hextra]
    simp only [List.mem_append]
    constructor
    · rintro ((hin | hin) | hin)
      · by_contra hne
        have : h.Keys.length ≠ 0 := fun h0 => hne (List.length_eq_zero.1 h0)
        simp [initialLog, this] at hin
      · have := hdebug _ hin
        simp [noKeysRecord] at this
      · rcases hwarn _ hin with heq | heq
        · simp [noKeysRecord, noReplayCacheRecord] at heq
        · simp [noKeysRecord, noMetricsRecord] at heq
    · intro hnil
      exact Or.inl (Or.inl (by simp [initialLog, hnil]))
  have hentries : entries = [] ↔ h.Keys = [] := by
    constructor
    · intro hnil
      cases hk : h.Keys with
      | nil => rfl
      | cons cfg rest =>
        rw [hk, hnil] at h3
        simp [firstOccurrencesAfter] at h3
    · intro hnil
      rw [hnil] at h3
      simpa [firstOccurrencesAfter] using h3
  exact ⟨entries, h1, h2, hkeys.trans hentries.symm, hkeys⟩

/-- The examples of C10: with the keys a, b, c no warning about keys is logged and the
registry has entries. -/
theorem no_keys_warning_iff_empty_registry_witness :
    (Provision exampleNewEncryptionKey (newHandler exampleKeys) bareContext).err = none ∧
    ∃ entries,
      streamRegistry (Provision exampleNewEncryptionKey (newHandler exampleKeys) bareContext).h =
        some entries ∧
      associationRegistry
        (Provision exampleNewEncryptionKey (newHandler exampleKeys) bareContext).h =
        some entries ∧
      (noKeysRecord ∈ (Provision exampleNewEncryptionKey (newHandler exampleKeys) bareContext).log ↔
        entries = []) ∧
      (noKeysRecord ∈ (Provision exampleNewEncryptionKey (newHandler exampleKeys) bareContext).log ↔
        (newHandler exampleKeys).Keys = []) :=
  ⟨by decide,
   no_keys_warning_iff_empty_registry exampleNewEncryptionKey (newHandler exampleKeys)
     bareContext (by decide)⟩

/-! ## The dispatch of `Handle` -/

theorem Provision_metrics (NewEncryptionKey : KeyDerivation) (h : ShadowsocksHandler)
    (ctx : Context) (m : ServiceMetrics)
    (hok : (Provision NewEncryptionKey h ctx).err = none)
    (hm : ctx.Value Key.metricsCtxKey = GoAny.serviceMetrics m) :
    ∃ sh ah,
      (Provision NewEncryptionKey h ctx).h.streamHandler = some sh ∧
      (Provision NewEncryptionKey h ctx).h.associationHandler = some ah ∧
      (Provision NewEncryptionKey h ctx).h.metrics = some m := by
  obtain ⟨st, hrun⟩ := Provision_ok_loop NewEncryptionKey h ctx hok
  obtain ⟨_, hh, _⟩ := Provision_of_loop_ok NewEncryptionKey h ctx st hrun
  rw [hh]
  exact ⟨_, _, rfl, rfl, by simp [hm, GoAny.assertServiceMetrics]⟩

theorem Handle_stream (B : HandlerBehaviour) (h : ShadowsocksHandler) (cx : Connection)
    (m : ServiceMetrics) (sh : StreamHandler)
    (hm : h.metrics = some m) (hsh : h.streamHandler = some sh)
    (htag : cx.GetVar Key.outlineConnectionTypeCtxKey =
      GoAny.connectionType ConnectionType.StreamConnectionType)
    (hconn : cx.Conn.isStreamConn = true) :
    Handle B h cx =
      ⟨[Event.AddOpenTCPConnection m cx,
        Event.HandleStream sh cx.Context cx.Conn (m.AddOpenTCPConnection cx)
          (B.HandleStream sh cx.Context cx.Conn (m.AddOpenTCPConnection cx))],
       Result.returned none⟩ := by
  simp [Handle, htag, GoAny.assertConnectionType, hconn, hm, hsh]

theorem Handle_packet (B : HandlerBehaviour) (h : ShadowsocksHandler) (cx : Connection)
    (m : ServiceMetrics) (ah : AssociationHandler)
    (hm : h.metrics = some m) (hah : h.associationHandler = some ah)
    (htag : cx.GetVar Key.outlineConnectionTypeCtxKey =
      GoAny.connectionType ConnectionType.PacketConnectionType) :
    Handle B h cx =
      ⟨[Event.AddOpenUDPAssociation m cx,
        Event.HandleAssociation ah cx.Context cx.Conn (m.AddOpenUDPAssociation cx)
          (B.HandleAssociation ah cx.Context cx.Conn (m.AddOpenUDPAssociation cx))],
       Result.returned none⟩ := by
  simp [Handle, htag, GoAny.assertConnectionType, hm, hah]

/-- C4: for a connection whose connection-type variable is absent or holds a value that
is not a `ConnectionType`, `Handle` returns the error "unknown outline connection type"
and makes no call at all: no handler is invoked and no metrics handle is opened. -/
theorem handle_untagged (B : HandlerBehaviour) (h : ShadowsocksHandler) (cx : Connection)
    (hno : ∀ t, cx.GetVar Key.outlineConnectionTypeCtxKey ≠ GoAny.connectionType t) :
    Handle B h cx = ⟨[], Result.returned (some unknownConnectionType)⟩ := by
  unfold Handle
  cases hv : cx.GetVar Key.outlineConnectionTypeCtxKey with
  | connectionType t => exact absurd hv (hno t)
  | nil => rfl
  | replayCache r => rfl
  | serviceMetrics m => rfl
  | other n => rfl

/-- The examples of C4: a connection without variables, on a provisioned handler. -/
theorem handle_untagged_witness :
    Handle quietHandlers
      (Provision exampleNewEncryptionKey (newHandler exampleKeys) appContext).h
      (exampleConnection true []) =
      ⟨[], Result.returned (some unknownConnectionType)⟩ :=
  handle_untagged quietHandlers _ (exampleConnection true [])
    (by intro t; simp [Connection.GetVar, exampleConnection])

/-- C5, what the code does: for a connection whose connection-type variable holds a
`ConnectionType` that is neither of the two constants, no case of the `switch` is taken:
`Handle` makes no call and returns nil, not the error of the unknown connection type. -/
theorem handle_unrecognized_type_returns_nil (B : HandlerBehaviour) (h : ShadowsocksHandler)
    (ctx : ExecContext) (conn : NetConn) (raw : String) (rest : List (Key × GoAny)) :
    Handle B h
      ⟨ctx, conn,
        (Key.outlineConnectionTypeCtxKey, GoAny.connectionType (ConnectionType.other raw)) ::
          rest⟩ =
      ⟨[], Result.returned none⟩ ∧
    Result.returned none ≠ Result.returned (some unknownConnectionType) := by
  constructor
  · simp [Handle, Connection.GetVar, List.lookup, GoAny.assertConnectionType]
  · simp

/-- C6 as stated fails: a handler provisioned in a context without a metrics sink panics
on a connection tagged Stream before any call is made, and so does a handler provisioned
with a metrics sink on a connection tagged Stream whose wrapped connection is not a
`transport.StreamConn`. -/
theorem handle_dispatch_events_counterexample :
    (Provision exampleNewEncryptionKey (newHandler exampleKeys) bareContext).err = none ∧
    Handle quietHandlers
      (Provision exampleNewEncryptionKey (newHandler exampleKeys) bareContext).h
      (exampleConnection true [streamTag]) = ⟨[], Result.panicked nilDereference⟩ ∧
    (Provision exampleNewEncryptionKey (newHandler exampleKeys) appContext).err = none ∧
    Handle quietHandlers
      (Provision exampleNewEncryptionKey (newHandler exampleKeys) appContext).h
      (exampleConnection false [streamTag]) = ⟨[], Result.panicked interfaceConversion⟩ := by
  decide

/-- C6, amended: for a handler provisioned with success in a context that holds a metrics
sink `m`, one call of `Handle` on a connection tagged Stream whose wrapped connection is
a `transport.StreamConn` makes exactly two calls, in this order: the registration
`m.AddOpenTCPConnection(cx)`, then one invocation of the bound stream handler with the
context of the connection, its wrapped connection and the handle just opened; on a
connection tagged Packet it makes exactly the registration `m.AddOpenUDPAssociation(cx)`
and then one invocation of the bound association handler.  In both cases the other
handler is not invoked and `Handle` returns nil. -/
theorem handle_dispatch_events (NewEncryptionKey : KeyDerivation) (h : ShadowsocksHandler)
    (ctx : Context) (m : ServiceMetrics) (B : HandlerBehaviour) (cx : Connection)
    (hok : (Provision NewEncryptionKey h ctx).err = none)
    (hm : ctx.Value Key.metricsCtxKey = GoAny.serviceMetrics m) :
    ∃ sh ah,
      (Provision NewEncryptionKey h ctx).h.streamHandler = some sh ∧
      (Provision NewEncryptionKey h ctx).h.associationHandler = some ah ∧
      (cx.GetVar Key.outlineConnectionTypeCtxKey =
          GoAny.connectionType ConnectionType.StreamConnectionType →
        cx.Conn.isStreamConn = true →
        Handle B (Provision NewEncryptionKey h ctx).h cx =
          ⟨[Event.AddOpenTCPConnection m cx,
            Event.HandleStream sh cx.Context cx.Conn (m.AddOpenTCPConnection cx)
              (B.HandleStream sh cx.Context cx.Conn (m.AddOpenTCPConnection cx))],
           Result.returned none⟩) ∧
      (cx.GetVar Key.outlineConnectionTypeCtxKey =
          GoAny.connectionType ConnectionType.PacketConnectionType →
        Handle B (Provision NewEncryptionKey h ctx).h cx =
          ⟨[Event.AddOpenUDPAssociation m cx,
            Event.HandleAssociation ah cx.Context cx.Conn (m.AddOpenUDPAssociation cx)
              (B.HandleAssociation ah cx.Context cx.Conn (m.AddOpenUDPAssociation cx))],
           Result.returned none⟩) := by
  obtain ⟨sh, ah, hsh, hah, hmet⟩ := Provision_metrics NewEncryptionKey h ctx m hok hm
  exact ⟨sh, ah, hsh, hah,
    fun htag hconn => Handle_stream B _ cx m sh hmet hsh htag hconn,
    fun htag => Handle_packet B _ cx m ah hmet hah htag⟩

/-- The examples of C6, amended: a stream connection and a datagram association on a
handler provisioned inside the Outline app. -/
theorem handle_dispatch_events_witness :
    (∃ sh,
      (Handle quietHandlers
        (Provision exampleNewEncryptionKey (newHandler exampleKeys) appContext).h
        (exampleConnection true [streamTag])).events =
        [Event.AddOpenTCPConnection ⟨"prometheus"⟩ (exampleConnection true [streamTag]),
         Event.HandleStream sh ⟨"background"⟩ ⟨"client", true⟩
           ⟨⟨"prometheus"⟩, exampleConnection true [streamTag]⟩ none]) ∧
    (∃ ah,
      (Handle quietHandlers
        (Provision exampleNewEncryptionKey (newHandler exampleKeys) appContext).h
        (exampleConnection false [packetTag])).events =
        [Event.AddOpenUDPAssociation ⟨"prometheus"⟩ (exampleConnection false [packetTag]),
         Event.HandleAssociation ah ⟨"background"⟩ ⟨"client", false⟩
           ⟨⟨"prometheus"⟩, exampleConnection false [packetTag]⟩ none]) := by
  obtain ⟨sh, _, _, _, hstream, _⟩ :=
    handle_dispatch_events exampleNewEncryptionKey (newHandler exampleKeys) appContext
      ⟨"prometheus"⟩ quietHandlers (exampleConnection true [streamTag]) (by decide) (by decide)
  obtain ⟨_, ah, _, _, _, hpacket⟩ :=
    handle_dispatch_events exampleNewEncryptionKey (newHandler exampleKeys) appContext
      ⟨"prometheus"⟩ quietHandlers (exampleConnection false [packetTag]) (by decide) (by decide)
  exact ⟨⟨sh, by rw [hstream (by decide) (by decide)]; rfl⟩,
    ⟨ah, by rw [hpacket (by decide)]; rfl⟩⟩

/-- C7 as stated fails: when the run of the bound handler ends with an error `e`, on a
stream connection as on a datagram association, `Handle` returns nil and not `e`. -/
theorem handle_returns_nil_counterexample :
    (Handle (failingHandlers connectionReset)
      (Provision exampleNewEncryptionKey (newHandler exampleKeys) appContext).h
      (exampleConnection true [streamTag])).events.map Event.ended =
      [none, some connectionReset] ∧
    (Handle (failingHandlers connectionReset)
      (Provision exampleNewEncryptionKey (newHandler exampleKeys) appContext).h
      (exampleConnection true [streamTag])).result = Result.returned none ∧
    (Handle (failingHandlers connectionReset)
      (Provision exampleNewEncryptionKey (newHandler exampleKeys) appContext).h
      (exampleConnection false [packetTag])).events.map Event.ended =
      [none, some connectionReset] ∧
    (Handle (failingHandlers connectionReset)
      (Provision exampleNewEncryptionKey (newHandler exampleKeys) appContext).h
      (exampleConnection false [packetTag])).result = Result.returned none ∧
    Result.returned none ≠ Result.returned (some connectionReset) := by
  decide

/-- C7, amended: for a handler provisioned with success in a context that holds a metrics
sink `m`, one call of `Handle` on a connection tagged Stream (whose wrapped connection is
a `transport.StreamConn`) or tagged Packet invokes the bound handler exactly once, after
the registration with `m`, and then returns nil, whatever the run of the handler ended
with: when the run of the stream handler, or of the association handler, ends with
`ended`, an error `e` included, the calls of `Handle` are the registration and that one
invocation, and the result of `Handle` is nil, not `e`. -/
theorem handle_returns_nil_after_dispatch (NewEncryptionKey : KeyDerivation)
    (h : ShadowsocksHandler) (ctx : Context) (m : ServiceMetrics) (B : HandlerBehaviour)
    (cx : Connection)
    (hok : (Provision NewEncryptionKey h ctx).err = none)
    (hm : ctx.Value Key.metricsCtxKey = GoAny.serviceMetrics m) :
    ∃ sh ah,
      (Provision NewEncryptionKey h ctx).h.streamHandler = some sh ∧
      (Provision NewEncryptionKey h ctx).h.associationHandler = some ah ∧
      (∀ ended : Option GoError,
        cx.GetVar Key.outlineConnectionTypeCtxKey =
          GoAny.connectionType ConnectionType.StreamConnectionType →
        cx.Conn.isStreamConn = true →
        B.HandleStream sh cx.Context cx.Conn (m.AddOpenTCPConnection cx) = ended →
        (Handle B (Provision NewEncryptionKey h ctx).h cx).events =
          [Event.AddOpenTCPConnection m cx,
           Event.HandleStream sh cx.Context cx.Conn (m.AddOpenTCPConnection cx) ended] ∧
        (Handle B (Provision NewEncryptionKey h ctx).h cx).result = Result.returned none ∧
        ∀ e, ended = some e →
          (Handle B (Provision NewEncryptionKey h ctx).h cx).result ≠
            Result.returned (some e)) ∧
      (∀ ended : Option GoError,
        cx.GetVar Key.outlineConnectionTypeCtxKey =
          GoAny.connectionType ConnectionType.PacketConnectionType →
        B.HandleAssociation ah cx.Context cx.Conn (m.AddOpenUDPAssociation cx) = ended →
        (Handle B (Provision NewEncryptionKey h ctx).h cx).events =
          [Event.AddOpenUDPAssociation m cx,
           Event.HandleAssociation ah cx.Context cx.Conn (m.AddOpenUDPAssociation cx)
             ended] ∧
        (Handle B (Provision NewEncryptionKey h ctx).h cx).result = Result.returned none ∧
        ∀ e, ended = some e →
          (Handle B (Provision NewEncryptionKey h ctx).h cx).result ≠
            Result.returned (some e)) := by
  obtain ⟨sh, ah, hsh, hah, hmet⟩ := Provision_metrics NewEncryptionKey h ctx m hok hm
  refine ⟨sh, ah, hsh, hah, ?_, ?_⟩
  · intro ended htag hconn hended
    rw [Handle_stream B _ cx m sh hmet hsh htag hconn, hended]
    exact ⟨rfl, rfl, fun e _ hres => by simp at hres⟩
  · intro ended htag hended
    rw [Handle_packet B _ cx m ah hmet hah htag, hended]
    exact ⟨rfl, rfl, fun e _ hres => by simp at hres⟩

/-- The examples of C7, amended: the run of the stream handler, and that of the
association handler, ends with the error of a reset connection; `Handle` has invoked the
handler once, after the registration, and returns nil. -/
theorem handle_returns_nil_after_dispatch_witness :
    (∃ sh,
      Handle (failingHandlers connectionReset)
        (Provision exampleNewEncryptionKey (newHandler exampleKeys) appContext).h
        (exampleConnection true [streamTag]) =
        ⟨[Event.AddOpenTCPConnection ⟨"prometheus"⟩ (exampleConnection true [streamTag]),
          Event.HandleStream sh ⟨"background"⟩ ⟨"client", true⟩
            ⟨⟨"prometheus"⟩, exampleConnection true [streamTag]⟩ (some connectionReset)],
         Result.returned none⟩) ∧
    (∃ ah,
      Handle (failingHandlers connectionReset)
        (Provision exampleNewEncryptionKey (newHandler exampleKeys) appContext).h
        (exampleConnection false [packetTag]) =
        ⟨[Event.AddOpenUDPAssociation ⟨"prometheus"⟩ (exampleConnection false [packetTag]),
          Event.HandleAssociation ah ⟨"background"⟩ ⟨"client", false⟩
            ⟨⟨"prometheus"⟩, exampleConnection false [packetTag]⟩ (some connectionReset)],
         Result.returned none⟩) := by
  obtain ⟨sh, _, _, _, hstream, _⟩ :=
    handle_returns_nil_after_dispatch exampleNewEncryptionKey (newHandler exampleKeys)
      appContext ⟨"prometheus"⟩ (failingHandlers connectionReset)
      (exampleConnection true [streamTag]) (by decide) (by decide)
  obtain ⟨_, ah, _, _, _, hpacket⟩ :=
    handle_returns_nil_after_dispatch exampleNewEncryptionKey (newHandler exampleKeys)
      appContext ⟨"prometheus"⟩ (failingHandlers connectionReset)
      (exampleConnection false [packetTag]) (by decide) (by decide)
  obtain ⟨hev1, hres1, _⟩ := hstream (some connectionReset) (by decide) (by decide) rfl
  obtain ⟨hev2, hres2, _⟩ := hpacket (some connectionReset) (by decide) rfl
  refine ⟨⟨sh, ?_⟩, ⟨ah, ?_⟩⟩
  · cases hout : Handle (failingHandlers connectionReset)
        (Provision exampleNewEncryptionKey (newHandler exampleKeys) appContext).h
        (exampleConnection true [streamTag]) with
    | mk events result =>
      rw [hout] at hev1 hres1
      simp only [] at hev1 hres1
      rw [hev1, hres1]
      rfl
  · cases hout : Handle (failingHandlers connectionReset)
        (Provision exampleNewEncryptionKey (newHandler exampleKeys) appContext).h
        (exampleConnection false [packetTag]) with
    | mk events result =>
      rw [hout] at hev2 hres2
      simp only [] at hev2 hres2
      rw [hev2, hres2]
      rfl

/-- C8, what the code does: `Provision` in a context without replay cache and without
metrics sink succeeds and leaves the field `metrics` nil; `Handle` then calls a method on
that nil interface, so that a connection tagged Stream, as one tagged Packet, ends in a
panic before any call is made, whatever the handlers would do. -/
theorem handle_without_metrics_panics (B : HandlerBehaviour) :
    (Provision exampleNewEncryptionKey (newHandler exampleKeys) bareContext).err = none ∧
    (Provision exampleNewEncryptionKey (newHandler exampleKeys) bareContext).h.metrics = none ∧
    Handle B (Provision exampleNewEncryptionKey (newHandler exampleKeys) bareContext).h
      (exampleConnection true [streamTag]) = ⟨[], Result.panicked nilDereference⟩ ∧
    Handle B (Provision exampleNewEncryptionKey (newHandler exampleKeys) bareContext).h
      (exampleConnection false [packetTag]) = ⟨[], Result.panicked nilDereference⟩ := by
  refine ⟨by decide, by decide, ?_, ?_⟩
  · have hmet : (Provision exampleNewEncryptionKey (newHandler exampleKeys)
        bareContext).h.metrics = none := by decide
    simp [Handle, Connection.GetVar, exampleConnection, streamTag, List.lookup,
      GoAny.assertConnectionType, hmet]
  · have hmet : (Provision exampleNewEncryptionKey (newHandler exampleKeys)
        bareContext).h.metrics = none := by decide
    simp [Handle, Connection.GetVar, exampleConnection, packetTag, List.lookup,
      GoAny.assertConnectionType, hmet]

end OutlineCaddy
